import Mathlib

/-!
Shallow embedding of the command-pipeline and query/update core of the
`reason` bibliography shell (src/paper.rs, src/filter.rs, src/error.rs,
src/cmd/mark.rs, src/cmd/sort.rs), together with theorems settling the
frozen specification claims.

Machine integers (`usize`) are modelled as `Nat`; Rust `HashMap` collection
phases are modelled as association lists with the same contains/insert
semantics; Rust `HashSet<String>` label sets are modelled as duplicate-free
`List String`; fallible functions return `Except Fallacy`.
-/

namespace Reason

/-- Error type from src/error.rs, restricted to the variants used by the
embedded core (src/filter.rs and src/cmd/sort.rs reference
`FilterKeywordNoMatch` and `SetNoPapers`, which the embedding includes as
constructors).  `Cancelled` models the spec's distinct user-declined
confirmation outcome; `Panic` models a Rust `panic!` or `.unwrap()` on a
value that could fail. -/
inductive Fallacy where
  | PaperDuplicateField (kw : String)
  | PaperMissingFields (fields : String)
  | FilterKeywordNoMatch (kw : String)
  | FilterBuildFailed (pat : String)
  | SetNoPapers
  | Cancelled
  | Panic
deriving DecidableEq, Repr

/-- Reading progress enum from src/paper.rs (default `Unread`). -/
inductive ReadingProgress where
  | Unread
  | InProgress
  | Read
deriving DecidableEq, Repr, BEq

/-- The `impl FromStr for ReadingProgress` from src/paper.rs: total, every
unrecognized string maps to `Unread`, and the error type is never produced. -/
def ReadingProgress.from_str (s : String) : Except Unit ReadingProgress :=
  Except.ok (match s with
    | "unread" => ReadingProgress.Unread
    | "current" => ReadingProgress.InProgress
    | "read" => ReadingProgress.Read
    | _ => ReadingProgress.Unread)

/-- The `Paper` record from src/paper.rs.  `PathBuf` fields are modelled as
strings; `labels: HashSet<String>` is modelled as a duplicate-free list. -/
structure Paper where
  title : String
  nickname : Option String
  authors : List String
  venue : String
  year : String
  filepath : Option String
  labels : List String
  notepath : Option String
  wikipath : Option String
  progress : ReadingProgress
deriving DecidableEq, Repr

/-- Rust `Paper::default()`: all fields empty/none, progress `Unread`. -/
def defaultPaper : Paper :=
  ⟨"", none, [], "", "", none, [], none, none, ReadingProgress.Unread⟩

/- Association-list model of the `HashMap<String, _>` used in the two
argument-collection loops.  `mapInsert` overwrites an existing key, exactly
like `HashMap::insert`. -/

def mapContains (m : List (String × α)) (k : String) : Bool :=
  (m.find? (fun p => p.1 = k)).isSome

def mapInsert (m : List (String × α)) (k : String) (v : α) : List (String × α) :=
  if mapContains m k then m.map (fun p => if p.1 = k then (k, v) else p)
  else m ++ [(k, v)]

def mapFind (m : List (String × α)) (k : String) : Option α :=
  (m.find? (fun p => p.1 = k)).map (fun p => p.2)

/-- Splitting a character sequence on `','`, like Rust `str::split(',')`:
the empty string yields one empty piece, and every comma starts a new
piece. -/
def splitComma : List Char → List (List Char)
  | [] => [[]]
  | c :: cs =>
    if c = ',' then [] :: splitComma cs
    else
      match splitComma cs with
      | [] => [[c]]
      | g :: gs => (c :: g) :: gs

/-- Rust `str::trim`: drop whitespace from both ends. -/
def trimChars (l : List Char) : List Char :=
  ((l.dropWhile Char.isWhitespace).reverse.dropWhile Char.isWhitespace).reverse

/-- Rust `value.split(',').map(|s| s.trim().to_string())`. -/
def splitTrim (s : String) : List String :=
  (splitComma s.data).map (fun cs => String.mk (trimChars cs))

/-- Models `HashSet::insert` on the duplicate-free list: no-op when present,
append when absent. -/
def labelInsert (ls : List String) (l : String) : List String :=
  if l ∈ ls then ls else ls ++ [l]

/-- Collecting an iterator of labels into a `HashSet<String>`. -/
def labelSet (xs : List String) : List String :=
  xs.foldl labelInsert []

/-- Models `HashSet::remove` for each label in `rem`. -/
def labelsRemove (ls : List String) (rem : List String) : List String :=
  rem.foldl (fun acc l => acc.filter (fun x => x ≠ l)) ls

/-- The keyword set of `Paper::from_args` (construction grammar). -/
def newKeywords : List String := ["as", "by", "at", "in", "@", "is"]

/-- The keyword set of `Paper::apply_from_args` (update grammar). -/
def updateKeywords : List String := ["as", "by", "at", "in", "is", "not"]

/-- The collection loop of `Paper::from_args` (src/paper.rs lines 136-154):
keyword → `Some` following token (`None` when the keyword is last), duplicate
keyword or second free-text token → `PaperDuplicateField`. -/
def collectNew (m : List (String × Option String)) :
    List String → Except Fallacy (List (String × Option String))
  | [] => Except.ok m
  | arg :: rest =>
    if arg ∈ newKeywords then
      if mapContains m arg then Except.error (Fallacy.PaperDuplicateField arg)
      else
        match rest with
        | v :: rest2 => collectNew (mapInsert m arg (some v)) rest2
        | [] => Except.ok (mapInsert m arg none)
    else
      if mapContains m "_" then Except.error (Fallacy.PaperDuplicateField "title")
      else collectNew (mapInsert m "_" (some arg)) rest

/-- The fixed `(keyword, field_name, required)` table of `Paper::from_args`
(src/paper.rs lines 159-167). -/
def requiredSpec : List (String × String × Bool) :=
  [("by", "authors", true), ("at", "venue", true), ("in", "year", true),
   ("_", "title", true), ("as", "nickname", false), ("@", "filepath", false),
   ("is", "labels", false)]

/-- The missing-required-fields pass of `Paper::from_args`: a keyword whose
map entry is absent or `None` contributes `field_name(keyword)` when
required. -/
def missingOf (m : List (String × Option String)) : List String :=
  requiredSpec.foldl
    (fun acc e =>
      match mapFind m e.1 with
      | some (some _) => acc
      | _ => if e.2.2 then acc ++ [e.2.1 ++ "(" ++ e.1 ++ ")"] else acc)
    []

/-- Flattens the two option layers of a collected map entry, like
`fields.remove(name)` which holds a value only for `Some(Some(_))` entries. -/
def joinOpt (o : Option (Option String)) : Option String :=
  o.bind id

/-- Builds a paper from command arguments: `Paper::from_args` (src/paper.rs
lines 134-217).  The first argument is
the command token and is skipped.  The `Fallacy.Panic` arm models the
`.unwrap()` calls on required fields, unreachable once `missingOf m = []`. -/
def Paper.from_args (args : List String) : Except Fallacy Paper :=
  match collectNew [] (args.drop 1) with
  | Except.error e => Except.error e
  | Except.ok m =>
    let missing := missingOf m
    if missing.isEmpty then
      match mapFind m "by", mapFind m "at", mapFind m "in", mapFind m "_" with
      | some (some authorsStr), some (some venueStr), some (some yearStr),
        some (some titleStr) =>
        Except.ok
          { title := titleStr
            nickname := joinOpt (mapFind m "as")
            authors := splitTrim authorsStr
            venue := venueStr
            year := yearStr
            filepath := joinOpt (mapFind m "@")
            labels :=
              match mapFind m "is" with
              | some (some l) => labelSet (splitTrim l)
              | _ => []
            notepath := none
            wikipath := none
            progress := ReadingProgress.Unread }
      | _, _, _, _ => Except.error Fallacy.Panic
    else Except.error (Fallacy.PaperMissingFields (String.intercalate ", " missing))

/-- The collection loop of `Paper::apply_from_args` (src/paper.rs lines
221-242).  A keyword that is the last token is inserted under the free-text
key `"_"` (overwriting any earlier free text), exactly as in the source. -/
def collectUpdate (m : List (String × String)) :
    List String → Except Fallacy (List (String × String))
  | [] => Except.ok m
  | arg :: rest =>
    if arg ∈ updateKeywords then
      if mapContains m arg then Except.error (Fallacy.PaperDuplicateField arg)
      else
        match rest with
        | v :: rest2 => collectUpdate (mapInsert m arg v) rest2
        | [] => Except.ok (mapInsert m "_" arg)
    else
      if mapContains m "_" then Except.error (Fallacy.PaperDuplicateField "title")
      else collectUpdate (mapInsert m "_" arg) rest

/-- The apply phase of `Paper::apply_from_args` (src/paper.rs lines 245-269),
in the source's fixed order: title, nickname, authors, venue, year,
label additions (`is`), label removals (`not`). -/
def applyMap (p : Paper) (m : List (String × String)) : Paper :=
  let p1 := match mapFind m "_" with
    | some t => { p with title := t }
    | none => p
  let p2 := match mapFind m "as" with
    | some v => { p1 with nickname := some v }
    | none => p1
  let p3 := match mapFind m "by" with
    | some v => { p2 with authors := splitTrim v }
    | none => p2
  let p4 := match mapFind m "at" with
    | some v => { p3 with venue := v }
    | none => p3
  let p5 := match mapFind m "in" with
    | some v => { p4 with year := v }
    | none => p4
  let p6 := match mapFind m "is" with
    | some v => { p5 with labels := (splitTrim v).foldl labelInsert p5.labels }
    | none => p5
  match mapFind m "not" with
  | some v => { p6 with labels := labelsRemove p6.labels (splitTrim v) }
  | none => p6

/-- Updates a paper: `Paper::apply_from_args` (src/paper.rs lines 219-272):
collect the whole
keyword map first, then apply changes; an error during collection reaches the
caller before any field is touched. -/
def Paper.apply_from_args (p : Paper) (args : List String) : Except Fallacy Paper :=
  match collectUpdate [] args with
  | Except.error e => Except.error e
  | Except.ok m => Except.ok (applyMap p m)

/-- The `PaperFilter` from src/filter.rs: six pattern lists.  A compiled `Regex`
is modelled by its pattern string; whether a pattern compiles is abstracted
by the `compileOk` parameter threaded through `from_args`. -/
structure PaperFilter where
  title : List String
  nickname : List String
  author : List String
  first_author : List String
  venue : List String
  year : List String
deriving DecidableEq, Repr

/-- Rust `PaperFilter::default()`: all six pattern lists empty. -/
def identityFilter : PaperFilter := ⟨[], [], [], [], [], []⟩

/-- Tags naming the six pattern-list fields of `PaperFilter`. -/
inductive FilterField where
  | FTitle | FNickname | FAuthor | FFirstAuthor | FVenue | FYear
deriving DecidableEq, Repr

/-- Appends a compiled pattern to one field list of a filter. -/
def pushPattern (f : PaperFilter) (fld : FilterField) (pat : String) : PaperFilter :=
  match fld with
  | FilterField.FTitle => { f with title := f.title ++ [pat] }
  | FilterField.FNickname => { f with nickname := f.nickname ++ [pat] }
  | FilterField.FAuthor => { f with author := f.author ++ [pat] }
  | FilterField.FFirstAuthor => { f with first_author := f.first_author ++ [pat] }
  | FilterField.FVenue => { f with venue := f.venue ++ [pat] }
  | FilterField.FYear => { f with year := f.year ++ [pat] }

/-- The loop of `PaperFilter::from_args` (src/filter.rs lines 26-40): a
recognized keyword takes the next token as its pattern and errors with
`FilterKeywordNoMatch` when none follows; any other token is itself a title
pattern.  `Regex::new` failure is `FilterBuildFailed`. -/
def filterLoop (compileOk : String → Bool) (f : PaperFilter) :
    List String → Except Fallacy PaperFilter
  | [] => Except.ok f
  | arg :: rest =>
    if arg = "as" ∨ arg = "by" ∨ arg = "by1" ∨ arg = "at" ∨ arg = "on" ∨ arg = "in" then
      match rest with
      | [] => Except.error (Fallacy.FilterKeywordNoMatch arg)
      | v :: rest2 =>
        if compileOk v then
          filterLoop compileOk
            (pushPattern f
              (if arg = "as" then FilterField.FNickname
               else if arg = "by" then FilterField.FAuthor
               else if arg = "by1" then FilterField.FFirstAuthor
               else if arg = "at" ∨ arg = "on" then FilterField.FVenue
               else FilterField.FYear) v) rest2
        else Except.error (Fallacy.FilterBuildFailed v)
    else
      if compileOk arg then
        filterLoop compileOk (pushPattern f FilterField.FTitle arg) rest
      else Except.error (Fallacy.FilterBuildFailed arg)

/-- Builds a filter: `PaperFilter::from_args` (src/filter.rs lines 23-42):
the caller removes
the command token before calling; `compileOk` decides which pattern strings
compile as regular expressions. -/
def PaperFilter.from_args (compileOk : String → Bool) (args : List String) :
    Except Fallacy PaperFilter :=
  filterLoop compileOk identityFilter args

/-- Merging of filters: `PaperFilter::merge` (src/filter.rs lines 45-56):
field-wise list
concatenation over a list of filters. -/
def PaperFilter.merge (filters : List PaperFilter) : PaperFilter :=
  filters.foldl
    (fun acc f =>
      ⟨acc.title ++ f.title, acc.nickname ++ f.nickname, acc.author ++ f.author,
       acc.first_author ++ f.first_author, acc.venue ++ f.venue,
       acc.year ++ f.year⟩)
    identityFilter

/-- The source's `PaperFilter::matches` (src/filter.rs lines 59-61), exactly
as written in
the source: it ignores both arguments and returns `false`. -/
def PaperFilter.matches (_f : PaperFilter) (_p : Paper) : Bool :=
  false

/-- The per-field evaluation the spec's §4.4 describes: an empty pattern list
imposes no constraint, a non-empty one needs at least one pattern to match. -/
def fieldHolds (matchPat : String → String → Bool) (pats : List String)
    (value : String) : Bool :=
  pats.isEmpty || pats.any (fun pat => matchPat pat value)

/-- The filter semantics the spec states for `matches` (conjunction across
fields, disjunction within a field, `first_author` against the first author
or failing when there is none), written to compare against the source's
`PaperFilter.matches`; `matchPat` abstracts regex search. -/
def matchesSpec (matchPat : String → String → Bool) (f : PaperFilter)
    (p : Paper) : Bool :=
  fieldHolds matchPat f.title p.title &&
  fieldHolds matchPat f.nickname (p.nickname.getD "") &&
  (f.author.isEmpty || f.author.any (fun pat => p.authors.any (matchPat pat))) &&
  (f.first_author.isEmpty ||
    (match p.authors with
     | [] => false
     | a :: _ => f.first_author.any (fun pat => matchPat pat a))) &&
  fieldHolds matchPat f.venue p.venue &&
  fieldHolds matchPat f.year p.year

/-- The `PaperList` newtype from src/paper.rs: a list of store indices. -/
abbrev PaperList := List Nat

/-- Session state: the paper store (`State::papers`). -/
structure State where
  papers : List Paper
deriving DecidableEq, Repr

/-- One command invocation's input: argument tokens plus the optional paper
list piped from the previous pipeline stage. -/
structure CommandInput where
  args : List String
  papers : Option PaperList
deriving DecidableEq, Repr

/-- The `CommandOutput` of the command prelude: `None`, `Message`, `Papers`. -/
inductive CommandOutput where
  | NoneOut
  | Message (s : String)
  | Papers (l : PaperList)
deriving DecidableEq, Repr

/-- Indexing `state.papers[ind]`; theorems using it carry in-bounds
hypotheses, matching the panic-free executions of the source. -/
def paperAt (state : State) (i : Nat) : Paper :=
  state.papers.getD i defaultPaper

/-- Sets `state.papers[ind].progress = r` at one index. -/
def setProgress : List Paper → Nat → ReadingProgress → List Paper
  | [], _, _ => []
  | p :: ps, 0, r => { p with progress := r } :: ps
  | p :: ps, Nat.succ i, r => p :: setProgress ps i r

/-- The mutation loop of mark/unmark/current: set the progress of every
selected index in order. -/
def markAll (ps : List Paper) (l : PaperList) (r : ReadingProgress) : List Paper :=
  l.foldl (fun acc i => setProgress acc i r) ps

/-- Modelled from the spec: `utils::confirm` (src/utils.rs, absent from
src/) — a synchronous yes/no prompt `confirm(message, default)` returning
`Ok(())` when the user accepts and the distinct cancelled outcome when the
user declines.  The user's answer is the explicit `decision` parameter. -/
def confirm (_message : String) (_default : Bool) (decision : Bool) :
    Except Fallacy Unit :=
  if decision then Except.ok () else Except.error Fallacy.Cancelled

/-- Modelled from the spec: `ls::execute` (src/cmd/ls.rs, absent from
src/) — the listing command builds a `PaperFilter` from its arguments via the
Filter Builder and evaluates it against the full store, returning exactly
`CommandOutput::Papers` of the matching indices (§4.5: the fallback path "must
be guaranteed to return exactly `CommandOutput::Papers`"). -/
def ls_execute (compileOk : String → Bool) (input : CommandInput)
    (state : State) : Except Fallacy CommandOutput :=
  match PaperFilter.from_args compileOk (input.args.drop 1) with
  | Except.error e => Except.error e
  | Except.ok filter =>
    Except.ok (CommandOutput.Papers
      ((state.papers.enum.filter (fun pr => filter.matches pr.2)).map
        (fun pr => pr.1)))

/-- The shared shape of mark/unmark/current (src/cmd/mark.rs): resolve the
selection (piped list, else `ls::execute` whose non-`Papers` outputs hit the
source's `panic!`), confirm when more than one paper is selected, then set
every selected paper's progress to `target`.  The three commands instantiate
`prompt`/`message`/`target`. -/
def bulk_execute (prompt : Nat → String) (message : Nat → String)
    (target : ReadingProgress) (compileOk : String → Bool) (decision : Bool)
    (input : CommandInput) (state : State) :
    Except Fallacy CommandOutput × State :=
  let resolved : Except Fallacy PaperList :=
    match input.papers with
    | some l => Except.ok l
    | none =>
      match ls_execute compileOk input state with
      | Except.ok (CommandOutput.Papers l) => Except.ok l
      | Except.ok _ => Except.error Fallacy.Panic
      | Except.error e => Except.error e
  match resolved with
  | Except.error e => (Except.error e, state)
  | Except.ok l =>
    let n := l.length
    match (if n > 1 then confirm (prompt n) false decision else Except.ok ()) with
    | Except.error e => (Except.error e, state)
    | Except.ok _ =>
      (Except.ok (CommandOutput.Message (message n)),
       ⟨markAll state.papers l target⟩)

/-- The `format!("Marked {} {} as …")` messages of src/cmd/mark.rs. -/
def markedMessage (n : Nat) (suffix : String) : String :=
  "Marked " ++ toString n ++ " " ++ (if n ≠ 1 then "papers" else "paper") ++
    " as " ++ suffix ++ ".\n"

/-- The command `mark::execute` (src/cmd/mark.rs lines 11-44). -/
def mark_execute (compileOk : String → Bool) (decision : Bool)
    (input : CommandInput) (state : State) :
    Except Fallacy CommandOutput × State :=
  bulk_execute
    (fun n => "Mark " ++ toString n ++ " papers as read?")
    (fun n => markedMessage n "finished")
    ReadingProgress.Read compileOk decision input state

/-- The command `unmark::execute` (src/cmd/mark.rs lines 51-84). -/
def unmark_execute (compileOk : String → Bool) (decision : Bool)
    (input : CommandInput) (state : State) :
    Except Fallacy CommandOutput × State :=
  bulk_execute
    (fun n => "Mark " ++ toString n ++ " papers as unread?")
    (fun n => markedMessage n "unread")
    ReadingProgress.Unread compileOk decision input state

/-- The command `current::execute` (src/cmd/mark.rs lines 91-127). -/
def current_execute (compileOk : String → Bool) (decision : Bool)
    (input : CommandInput) (state : State) :
    Except Fallacy CommandOutput × State :=
  bulk_execute
    (fun n => "Mark " ++ toString n ++ " papers as currently reading?")
    (fun n => markedMessage n "currently reading")
    ReadingProgress.InProgress compileOk decision input state

/-- Ascending `(title, id)` order of the `BTreeSet` in sort's title branch. -/
def pairLe (a b : String × Nat) : Bool :=
  decide (a.1 < b.1) || (decide (a.1 = b.1) && decide (a.2 ≤ b.2))

def insSorted (x : String × Nat) : List (String × Nat) → List (String × Nat)
  | [] => [x]
  | y :: ys => if pairLe x y then x :: y :: ys else y :: insSorted x ys

/-- The `BTreeSet<(&String, usize)>` of sort's title branch: de-duplicated
pairs iterated in ascending order. -/
def sortPairs (l : List (String × Nat)) : List (String × Nat) :=
  (l.dedup).foldr insSorted []

/-- The command `sort::execute` (src/cmd/sort.rs): no piped papers is
`SetNoPapers`; one
argument sorts by `(title, id)`; three arguments with `by` filter the
selection by parsed reading status (the `.unwrap()` is the `Panic` arm);
other `args[1]` values yield `CommandOutput::None`; any other argument count
leaves `sorted` empty. -/
def sort_execute (input : CommandInput) (state : State) :
    Except Fallacy CommandOutput :=
  match input.papers with
  | none => Except.error Fallacy.SetNoPapers
  | some papers =>
    match input.args with
    | [_] =>
      Except.ok (CommandOutput.Papers
        ((sortPairs (papers.map (fun id => ((paperAt state id).title, id)))).map
          (fun pr => pr.2)))
    | [_, a1, a2] =>
      if a1 = "by" then
        match ReadingProgress.from_str a2 with
        | Except.ok status =>
          Except.ok (CommandOutput.Papers
            (papers.filter (fun id => (paperAt state id).progress == status)))
        | Except.error _ => Except.error Fallacy.Panic
      else Except.ok CommandOutput.NoneOut
    | _ => Except.ok (CommandOutput.Papers [])

/-! Theorems.  Shared helper lemmas come first, then one theorem per claim
(with its counterexample and witness where applicable). -/

deriving instance DecidableEq for Except

/-- Helper: the apply phase on a map holding only the free-text entry changes
exactly the title. -/
theorem applyMap_title (p : Paper) (t : String) :
    applyMap p [("_", t)] = { p with title := t } := by
  rfl

/-- Helper: `apply_from_args` on a single non-keyword token sets exactly the
title. -/
theorem apply_single_free (p : Paper) (t : String) (ht : t ∉ updateKeywords) :
    Paper.apply_from_args p [t] = Except.ok { p with title := t } := by
  unfold Paper.apply_from_args collectUpdate
  rw [if_neg ht]
  rfl

/-- Helper: the Filter Builder loop never produces the internal `Panic`
error; its only errors are `FilterKeywordNoMatch` and `FilterBuildFailed`. -/
theorem filterLoop_ne_panic (co : String → Bool) (f : PaperFilter) (args : List String) :
    filterLoop co f args ≠ Except.error Fallacy.Panic := by
  induction f, args using filterLoop.induct co with
  | case1 f => simp [filterLoop]
  | case2 f arg h => simp [filterLoop, h]
  | case3 f arg1 h1 arg rest h ih => simpa [filterLoop, h1, h] using ih
  | case4 f arg1 h1 arg rest h => simp [filterLoop, h1, h]
  | case5 f arg rest h1 h ih =>
    unfold filterLoop
    rw [if_neg h1, if_pos h]
    exact ih
  | case6 f arg rest h1 h =>
    unfold filterLoop
    rw [if_neg h1, if_neg h]
    simp

/-- Helper: when `ls` succeeds its output is exactly `CommandOutput::Papers`. -/
theorem ls_ok_papers (co : String → Bool) (input : CommandInput) (state : State)
    (out : CommandOutput) (h : ls_execute co input state = Except.ok out) :
    ∃ l : PaperList, out = CommandOutput.Papers l := by
  unfold ls_execute at h
  cases hf : PaperFilter.from_args co (input.args.drop 1) with
  | error e => rw [hf] at h; cases h
  | ok filter =>
    rw [hf] at h
    cases h
    exact ⟨_, rfl⟩

/-- Helper: `ls` never produces the internal `Panic` error. -/
theorem ls_ne_panic (co : String → Bool) (input : CommandInput) (state : State) :
    ls_execute co input state ≠ Except.error Fallacy.Panic := by
  unfold ls_execute
  cases hf : PaperFilter.from_args co (input.args.drop 1) with
  | error e =>
    intro h
    cases h
    exact filterLoop_ne_panic co identityFilter (input.args.drop 1) hf
  | ok filter => intro h; cases h

/-- Helper: the shared mark/unmark/current body never reaches its `panic!`
branch, for any piped or fallback selection. -/
theorem bulk_ne_panic (prompt message : Nat → String) (target : ReadingProgress)
    (co : String → Bool) (d : Bool) (input : CommandInput) (state : State) :
    (bulk_execute prompt message target co d input state).1 ≠
      Except.error Fallacy.Panic := by
  unfold bulk_execute
  cases hp : input.papers with
  | some l =>
    simp only []
    cases hif : (if l.length > 1 then confirm (prompt l.length) false d else Except.ok ()) with
    | error e =>
      have he : e = Fallacy.Cancelled := by
        by_cases hl : l.length > 1
        · rw [if_pos hl] at hif
          unfold confirm at hif
          cases d with
          | false => cases hif; rfl
          | true => cases hif
        · rw [if_neg hl] at hif; cases hif
      simp [hif, he]
    | ok u => simp [hif]
  | none =>
    cases hls : ls_execute co input state with
    | error e =>
      have : e ≠ Fallacy.Panic := fun h => ls_ne_panic co input state (h ▸ hls)
      simp [hls, this]
    | ok out =>
      obtain ⟨l, rfl⟩ := ls_ok_papers co input state out hls
      simp only [hls]
      cases hif : (if l.length > 1 then confirm (prompt l.length) false d else Except.ok ()) with
      | error e =>
        have he : e = Fallacy.Cancelled := by
          by_cases hl : l.length > 1
          · rw [if_pos hl] at hif
            unfold confirm at hif
            cases d with
            | false => cases hif; rfl
            | true => cases hif
          · rw [if_neg hl] at hif; cases hif
        simp [hif, he]
      | ok u => simp [hif]

/-- Helper: everything surviving `labelsRemove` was already present. -/
theorem mem_labelsRemove_subset (rem : List String) :
    ∀ (ls : List String) (x : String), x ∈ labelsRemove ls rem → x ∈ ls := by
  induction rem with
  | nil => intro ls x h; exact h
  | cons r rs ih =>
    intro ls x h
    have : x ∈ ls.filter (fun y => y ≠ r) := ih _ x h
    exact (List.mem_filter.mp this).1

/-- Helper: a label in the removal list is absent after `labelsRemove`. -/
theorem labelsRemove_not_mem (rem : List String) :
    ∀ (ls : List String) (l : String), l ∈ rem → l ∉ labelsRemove ls rem := by
  induction rem with
  | nil => intro ls l h; cases h
  | cons r rs ih =>
    intro ls l hmem habs
    rcases List.mem_cons.mp hmem with hl | hl
    · subst hl
      have : l ∈ ls.filter (fun y => y ≠ l) := mem_labelsRemove_subset rs _ l habs
      have := (List.mem_filter.mp this).2
      simp at this
    · exact ih _ l hl habs

/-- Helper: `ReadingProgress::from_str` maps every unrecognized string to
`Unread`. -/
theorem from_str_default (s : String) (h1 : s ≠ "unread") (h2 : s ≠ "current")
    (h3 : s ≠ "read") :
    ReadingProgress.from_str s = Except.ok ReadingProgress.Unread := by
  unfold ReadingProgress.from_str
  congr 1
  split
  · exact absurd rfl h1
  · exact absurd rfl h2
  · exact absurd rfl h3
  · rfl

/-- Claim C1: the claim states that `PaperFilter::matches` returns true on
every identity filter (all six pattern lists empty) and implements the
per-field disjunctive semantics.  The source's `matches` instead returns
`false` for every filter and every paper — including the identity filter —
while the semantics the spec describes (`matchesSpec`) is identically true
there: the code contradicts the spec's evidently intended behavior (the spec
itself flags the always-false predicate as a defect). -/
theorem C1_matches_always_false :
    (∀ p : Paper, PaperFilter.matches identityFilter p = false) ∧
    (∀ (mp : String → String → Bool) (p : Paper),
      matchesSpec mp identityFilter p = true) := by
  constructor
  · intro p; rfl
  · intro mp p; rfl

/-- Claim C5: when required fields are missing, `Paper::from_args` reports
them all in one `PaperMissingFields` error — the message is the `", "`-join
of every missing required field (never just the first) — and in particular an
argument list missing `by`, `at`, `in` and the free-text title reports all
four as `authors(by), venue(at), year(in), title(_)`. -/
theorem C5_missing_fields_all_listed :
    (∀ (args : List String) (m : List (String × Option String)),
      collectNew [] (args.drop 1) = Except.ok m → missingOf m ≠ [] →
      Paper.from_args args =
        Except.error
          (Fallacy.PaperMissingFields (String.intercalate ", " (missingOf m)))) ∧
    Paper.from_args ["new"] =
      Except.error
        (Fallacy.PaperMissingFields "authors(by), venue(at), year(in), title(_)") := by
  constructor
  · intro args m hc hm
    unfold Paper.from_args
    rw [hc]
    have : (missingOf m).isEmpty = false := by
      cases hmm : missingOf m with
      | nil => exact absurd hmm hm
      | cons a l => rfl
    simp only [this]
    rfl
  · decide

/-- Witness for C5 at the concrete argument list `["new"]`. -/
theorem C5_witness :
    Paper.from_args ["new"] =
      Except.error
        (Fallacy.PaperMissingFields (String.intercalate ", " (missingOf []))) :=
  C5_missing_fields_all_listed.1 ["new"] [] rfl (by decide)

/-- Counterexample to claim C6 as stated: the argument list `["by", "by"]`
contains the recognized keyword `by` twice, yet `apply_from_args` succeeds —
the second occurrence is consumed as the value of the first — and mutates the
authors field. -/
theorem C6_counterexample :
    Paper.apply_from_args defaultPaper ["by", "by"] =
      Except.ok { defaultPaper with authors := ["by"] } := by
  decide

/-- Helper: every error of the update-grammar collection loop is a
`PaperDuplicateField` error, from any scan state. -/
theorem collectUpdate_error_shape (m : List (String × String)) (args : List String)
    (e : Fallacy) :
    collectUpdate m args = Except.error e → ∃ kw, e = Fallacy.PaperDuplicateField kw := by
  induction m, args using collectUpdate.induct with
  | case1 m =>
    intro h
    simp [collectUpdate] at h
  | case2 m arg rest h1 h2 =>
    intro hcol
    unfold collectUpdate at hcol
    rw [if_pos h1] at hcol
    simp only [h2, if_true] at hcol
    cases hcol
    exact ⟨arg, rfl⟩
  | case3 m arg h1 h2 v rest2 ih =>
    intro hcol
    unfold collectUpdate at hcol
    rw [if_pos h1] at hcol
    simp only [Bool.not_eq_true] at h2
    simp only [h2, Bool.false_eq_true, if_false] at hcol
    exact ih hcol
  | case4 m arg h1 h2 =>
    intro hcol
    unfold collectUpdate at hcol
    rw [if_pos h1] at hcol
    simp only [Bool.not_eq_true] at h2
    simp only [h2, Bool.false_eq_true, if_false] at hcol
    cases hcol
  | case5 m arg rest h1 h2 =>
    intro hcol
    unfold collectUpdate at hcol
    rw [if_neg h1] at hcol
    simp only [h2, if_true] at hcol
    cases hcol
    exact ⟨"title", rfl⟩
  | case6 m arg rest h1 h2 ih =>
    intro hcol
    unfold collectUpdate at hcol
    rw [if_neg h1] at hcol
    simp only [Bool.not_eq_true] at h2
    simp only [h2, Bool.false_eq_true, if_false] at hcol
    exact ih hcol

/-- Claim C6 (amended): whenever the update tokenizer's scan, having already
collected recognized keyword `kw` without error (scan state `m`), meets `kw`
again in keyword position, it fails with `PaperDuplicateField` naming `kw` —
in particular every list of the form `kw v kw …` fails naming `kw`; moreover
every `apply_from_args` failure is a `PaperDuplicateField` error that depends
only on the argument list, never on the paper, raised while collecting the
keyword map before any field is mutated (atomic no-op).  A repeated keyword
whose second occurrence is consumed as the value of the immediately preceding
keyword does not error, and a duplicate met earlier in the scan (for example
a second free-text token) preempts with its own field name. -/
theorem C6_duplicate_keyword_position :
    (∀ (m : List (String × String)) (kw : String) (rest : List String),
      kw ∈ updateKeywords → mapContains m kw = true →
      collectUpdate m (kw :: rest) =
        Except.error (Fallacy.PaperDuplicateField kw)) ∧
    (∀ (p : Paper) (kw v : String) (suffix : List String),
      kw ∈ updateKeywords →
      Paper.apply_from_args p (kw :: v :: kw :: suffix) =
        Except.error (Fallacy.PaperDuplicateField kw)) ∧
    (∀ (p q : Paper) (args : List String) (e : Fallacy),
      Paper.apply_from_args p args = Except.error e →
      (∃ kw, e = Fallacy.PaperDuplicateField kw) ∧
      Paper.apply_from_args q args = Except.error e) := by
  have hdup : ∀ (m : List (String × String)) (kw : String) (rest : List String),
      kw ∈ updateKeywords → mapContains m kw = true →
      collectUpdate m (kw :: rest) =
        Except.error (Fallacy.PaperDuplicateField kw) := by
    intro m kw rest hkw hmc
    unfold collectUpdate
    rw [if_pos hkw]
    simp only [hmc, if_true]
  refine ⟨hdup, ?_, ?_⟩
  · intro p kw v suffix hkw
    unfold Paper.apply_from_args
    have hcol : collectUpdate [] (kw :: v :: kw :: suffix) =
        Except.error (Fallacy.PaperDuplicateField kw) := by
      unfold collectUpdate
      rw [if_pos hkw]
      have hc0 : mapContains ([] : List (String × String)) kw = false := rfl
      simp only [hc0, Bool.false_eq_true, if_false]
      have hins : mapInsert ([] : List (String × String)) kw v = [(kw, v)] := rfl
      rw [hins]
      exact hdup [(kw, v)] kw suffix hkw (by simp [mapContains, List.find?])
    rw [hcol]
  · intro p q args e hp
    unfold Paper.apply_from_args at hp ⊢
    cases hc : collectUpdate [] args with
    | error e2 =>
      rw [hc] at hp
      have he : e2 = e := by injection hp
      subst he
      exact ⟨collectUpdate_error_shape [] args _ hc, rfl⟩
    | ok m =>
      rw [hc] at hp
      cases hp

/-- Witness for C6: the scan state already holding `by` errors on a second
`by`, the list `["by", "x", "by", "y"]` errors naming `by`, and the same
error arises for a different paper. -/
theorem C6_witness :
    collectUpdate [("by", "x")] ["by", "y"] =
      Except.error (Fallacy.PaperDuplicateField "by") ∧
    Paper.apply_from_args defaultPaper ["by", "x", "by", "y"] =
      Except.error (Fallacy.PaperDuplicateField "by") ∧
    Paper.apply_from_args
        ⟨"Q", none, [], "", "", none, [], none, none, ReadingProgress.Unread⟩
        ["by", "x", "by", "y"] =
      Except.error (Fallacy.PaperDuplicateField "by") :=
  ⟨C6_duplicate_keyword_position.1 [("by", "x")] "by" ["y"] (by decide) rfl,
   C6_duplicate_keyword_position.2.1 defaultPaper "by" "x" ["y"] (by decide),
   (C6_duplicate_keyword_position.2.2 defaultPaper
      ⟨"Q", none, [], "", "", none, [], none, none, ReadingProgress.Unread⟩
      ["by", "x", "by", "y"] (Fallacy.PaperDuplicateField "by")
      (C6_duplicate_keyword_position.2.1 defaultPaper "by" "x" ["y"] (by decide))).2⟩

/-- Claim C7: in a single `apply_from_args` call supplying both `is` and
`not`, label additions are applied before removals, so every label named by
`not` is absent afterwards; concretely, `is "a,b"` with `not "a"` on a paper
with empty labels leaves the label set holding exactly the single label
`"b"`. -/
theorem C7_is_before_not :
    (∀ (p : Paper) (vi vn : String) (q : Paper),
      Paper.apply_from_args p ["is", vi, "not", vn] = Except.ok q →
      ∀ l ∈ splitTrim vn, l ∉ q.labels) ∧
    (∀ p : Paper, p.labels = [] →
      Paper.apply_from_args p ["is", "a,b", "not", "a"] =
        Except.ok { p with labels := ["b"] }) := by
  constructor
  · intro p vi vn q hq l hl
    have hcol : Paper.apply_from_args p ["is", vi, "not", vn] =
        Except.ok (applyMap p [("is", vi), ("not", vn)]) := rfl
    rw [hcol] at hq
    have hq' : q = applyMap p [("is", vi), ("not", vn)] := by
      cases hq; rfl
    subst hq'
    show l ∉ (applyMap p [("is", vi), ("not", vn)]).labels
    have : (applyMap p [("is", vi), ("not", vn)]).labels =
        labelsRemove ((splitTrim vi).foldl labelInsert p.labels) (splitTrim vn) := rfl
    rw [this]
    exact labelsRemove_not_mem _ _ l hl
  · intro p hp
    have hcol : Paper.apply_from_args p ["is", "a,b", "not", "a"] =
        Except.ok (applyMap p [("is", "a,b"), ("not", "a")]) := rfl
    rw [hcol]
    have : applyMap p [("is", "a,b"), ("not", "a")] =
        { p with labels :=
            labelsRemove ((splitTrim "a,b").foldl labelInsert p.labels) (splitTrim "a") } := rfl
    rw [this, hp]
    rfl

/-- Witness for C7 at the default paper with `is "a,b"` and `not "a"`. -/
theorem C7_witness :
    Paper.apply_from_args defaultPaper ["is", "a,b", "not", "a"] =
      Except.ok { defaultPaper with labels := ["b"] } ∧
    "a" ∉ ({ defaultPaper with labels := ["b"] } : Paper).labels :=
  ⟨C7_is_before_not.2 defaultPaper rfl,
   C7_is_before_not.1 defaultPaper "a,b" "a" { defaultPaper with labels := ["b"] }
     (C7_is_before_not.2 defaultPaper rfl) "a" (by decide)⟩

/-- Counterexample to claim C8 as stated: a trailing recognized keyword does
not make the tokenizers fail with a `MissingValue` error (no such error
exists).  `apply_from_args` on `["as"]` succeeds and stores the keyword as
the free-text title, and `from_args` with a trailing optional keyword `as`
succeeds, silently ignoring it. -/
theorem C8_counterexample :
    Paper.apply_from_args defaultPaper ["as"] =
      Except.ok { defaultPaper with title := "as" } ∧
    Paper.from_args ["new", "T", "by", "A", "at", "V", "in", "Y", "as"] =
      Except.ok
        ⟨"T", none, ["A"], "V", "Y", none, [], none, none,
         ReadingProgress.Unread⟩ := by
  constructor
  · decide
  · decide

/-- Claim C8 (amended): no `MissingValue` error exists in the code.  When a
tokenizing scan reaches a recognized keyword as the last token with every
earlier token consumed without error: `PaperFilter::from_args` fails with
`FilterKeywordNoMatch` naming that keyword (for every partial filter `f` and
every compile predicate — compilation is never consulted for the keyword
itself); `Paper::apply_from_args` does not fail — a trailing keyword not yet
collected is stored into the free-text title slot, so in particular a lone
trailing keyword sets the title; and `Paper::from_args` records the keyword
with no value, treating its field as unset and erring only via
`PaperMissingFields` when that field is required.  A failure on an earlier
token (a non-compiling pattern, a duplicate) preempts these outcomes, and a
keyword immediately following another recognized keyword is consumed as that
keyword's value rather than acting as a trailing keyword. -/
theorem C8_trailing_keyword :
    (∀ (compileOk : String → Bool) (f : PaperFilter) (kw : String),
      kw = "as" ∨ kw = "by" ∨ kw = "by1" ∨ kw = "at" ∨ kw = "on" ∨ kw = "in" →
      filterLoop compileOk f [kw] =
        Except.error (Fallacy.FilterKeywordNoMatch kw)) ∧
    (∀ (compileOk : String → Bool) (kw : String),
      kw = "as" ∨ kw = "by" ∨ kw = "by1" ∨ kw = "at" ∨ kw = "on" ∨ kw = "in" →
      PaperFilter.from_args compileOk [kw] =
        Except.error (Fallacy.FilterKeywordNoMatch kw)) ∧
    (∀ (m : List (String × String)) (kw : String),
      kw ∈ updateKeywords → mapContains m kw = false →
      collectUpdate m [kw] = Except.ok (mapInsert m "_" kw)) ∧
    (∀ (p : Paper) (kw : String), kw ∈ updateKeywords →
      Paper.apply_from_args p [kw] = Except.ok { p with title := kw }) ∧
    (∀ (m : List (String × Option String)) (kw : String),
      kw ∈ newKeywords → mapContains m kw = false →
      collectNew m [kw] = Except.ok (mapInsert m kw none)) := by
  have hfl : ∀ (compileOk : String → Bool) (f : PaperFilter) (kw : String),
      kw = "as" ∨ kw = "by" ∨ kw = "by1" ∨ kw = "at" ∨ kw = "on" ∨ kw = "in" →
      filterLoop compileOk f [kw] =
        Except.error (Fallacy.FilterKeywordNoMatch kw) := by
    intro co f kw h
    unfold filterLoop
    rw [if_pos h]
  refine ⟨hfl, fun co kw h => hfl co identityFilter kw h, ?_, ?_, ?_⟩
  · intro m kw hkw hmc
    unfold collectUpdate
    rw [if_pos hkw]
    simp only [hmc, Bool.false_eq_true, if_false]
  · intro p kw hkw
    unfold Paper.apply_from_args collectUpdate
    rw [if_pos hkw]
    have hc0 : mapContains ([] : List (String × String)) kw = false := rfl
    simp only [hc0, Bool.false_eq_true, if_false]
    show Except.ok (applyMap p [("_", kw)]) = _
    rw [applyMap_title]
  · intro m kw hkw hmc
    unfold collectNew
    rw [if_pos hkw]
    simp only [hmc, Bool.false_eq_true, if_false]

/-- Witness for C8: a trailing `by1` after a collected title pattern, the
trailing `as` after a collected `by` entry landing in the free-text slot, a
lone trailing `not` setting the title, and a trailing optional `@` recorded
with no value during construction. -/
theorem C8_witness :
    filterLoop (fun _ => true) ⟨["t"], [], [], [], [], []⟩ ["by1"] =
      Except.error (Fallacy.FilterKeywordNoMatch "by1") ∧
    PaperFilter.from_args (fun _ => true) ["on"] =
      Except.error (Fallacy.FilterKeywordNoMatch "on") ∧
    collectUpdate [("by", "A")] ["as"] =
      Except.ok [("by", "A"), ("_", "as")] ∧
    Paper.apply_from_args defaultPaper ["not"] =
      Except.ok { defaultPaper with title := "not" } ∧
    collectNew [("_", some "T")] ["@"] =
      Except.ok [("_", some "T"), ("@", none)] :=
  ⟨C8_trailing_keyword.1 (fun _ => true) ⟨["t"], [], [], [], [], []⟩ "by1" (by decide),
   C8_trailing_keyword.2.1 (fun _ => true) "on" (by decide),
   C8_trailing_keyword.2.2.1 [("by", "A")] "as" (by decide) rfl,
   C8_trailing_keyword.2.2.2.1 defaultPaper "not" (by decide),
   C8_trailing_keyword.2.2.2.2 [("_", some "T")] "@" (by decide) rfl⟩

/-- Claim C9: for any paper built by `from_args`, updating with an argument
list containing no recognized keyword and no free-text token (necessarily the
empty list, since every token is one or the other) is a no-op — title,
authors and every other field unchanged — while a single bare free-text token
changes exactly the title. -/
theorem C9_noop_update :
    ∀ (args : List String) (p : Paper), Paper.from_args args = Except.ok p →
      Paper.apply_from_args p [] = Except.ok p ∧
      (∀ t : String, t ∉ updateKeywords →
        Paper.apply_from_args p [t] = Except.ok { p with title := t }) := by
  intro args p _
  exact ⟨rfl, fun t ht => apply_single_free p t ht⟩

/-- Witness for C9 on a paper built from
`["new", "T", "by", "A", "at", "V", "in", "Y"]`. -/
theorem C9_witness :
    Paper.apply_from_args
        ⟨"T", none, ["A"], "V", "Y", none, [], none, none, ReadingProgress.Unread⟩ [] =
      Except.ok
        ⟨"T", none, ["A"], "V", "Y", none, [], none, none, ReadingProgress.Unread⟩ ∧
    Paper.apply_from_args
        ⟨"T", none, ["A"], "V", "Y", none, [], none, none, ReadingProgress.Unread⟩ ["Z"] =
      Except.ok
        ⟨"Z", none, ["A"], "V", "Y", none, [], none, none, ReadingProgress.Unread⟩ := by
  have h := C9_noop_update ["new", "T", "by", "A", "at", "V", "in", "Y"]
    ⟨"T", none, ["A"], "V", "Y", none, [], none, none, ReadingProgress.Unread⟩ (by decide)
  exact ⟨h.1, h.2 "Z" (by decide)⟩

/-- Counterexample to claim C2 as stated: `sort` needs a paper selection, yet
with no piped list it fails with `SetNoPapers` instead of computing its
selection through the listing logic. -/
theorem C2_counterexample :
    sort_execute ⟨["sort"], none⟩ ⟨[]⟩ = Except.error Fallacy.SetNoPapers := by
  rfl

/-- Claim C2 (amended): `mark`, `unmark` and `current` resolve a missing
piped list by invoking `ls`, which on success returns exactly
`CommandOutput::Papers`, so their non-Papers `panic!` branch is unreachable;
`sort`, however, does not fall back and instead fails with `SetNoPapers`
when its input carries no piped paper list. -/
theorem C2_fallback_returns_papers :
    (∀ (compileOk : String → Bool) (input : CommandInput) (state : State)
        (out : CommandOutput),
      ls_execute compileOk input state = Except.ok out →
      ∃ l : PaperList, out = CommandOutput.Papers l) ∧
    (∀ (compileOk : String → Bool) (d : Bool) (input : CommandInput)
        (state : State),
      input.papers = none →
      (mark_execute compileOk d input state).1 ≠ Except.error Fallacy.Panic ∧
      (unmark_execute compileOk d input state).1 ≠ Except.error Fallacy.Panic ∧
      (current_execute compileOk d input state).1 ≠ Except.error Fallacy.Panic) ∧
    (∀ (state : State), sort_execute ⟨["sort"], none⟩ state =
      Except.error Fallacy.SetNoPapers) := by
  refine ⟨ls_ok_papers, fun co d input state _ => ⟨?_, ?_, ?_⟩, fun state => rfl⟩
  · exact bulk_ne_panic _ _ _ co d input state
  · exact bulk_ne_panic _ _ _ co d input state
  · exact bulk_ne_panic _ _ _ co d input state

/-- Witness for C2 on an empty store with no piped papers. -/
theorem C2_witness :
    (∃ l : PaperList, CommandOutput.Papers ([] : PaperList) = CommandOutput.Papers l) ∧
    (mark_execute (fun _ => true) false ⟨["mark"], none⟩ ⟨[]⟩).1 ≠
      Except.error Fallacy.Panic :=
  ⟨C2_fallback_returns_papers.1 (fun _ => true) ⟨["ls"], none⟩ ⟨[]⟩
     (CommandOutput.Papers []) rfl,
   (C2_fallback_returns_papers.2.1 (fun _ => true) false ⟨["mark"], none⟩ ⟨[]⟩ rfl).1⟩

/-- Claim C3: with a piped selection of more than one paper and a declined
confirmation, `mark::execute` returns the cancellation error and the whole
store — in particular every paper's progress field — is unchanged. -/
theorem C3_decline_is_atomic_noop :
    ∀ (compileOk : String → Bool) (input : CommandInput) (state : State)
      (l : PaperList),
      input.papers = some l → 1 < l.length →
      mark_execute compileOk false input state =
        (Except.error Fallacy.Cancelled, state) := by
  intro co input state l hp hl
  unfold mark_execute bulk_execute
  rw [hp]
  simp only []
  rw [if_pos hl]
  rfl

/-- Witness for C3 on a two-element selection over a two-paper store. -/
theorem C3_witness :
    mark_execute (fun _ => true) false ⟨["mark"], some [0, 1]⟩
        ⟨[defaultPaper, defaultPaper]⟩ =
      (Except.error Fallacy.Cancelled, ⟨[defaultPaper, defaultPaper]⟩) :=
  C3_decline_is_atomic_noop (fun _ => true) ⟨["mark"], some [0, 1]⟩
    ⟨[defaultPaper, defaultPaper]⟩ [0, 1] rfl (by decide)

/-- Claim C4: with a piped selection of exactly one paper, `mark` (likewise
`unmark` and `current`) applies the progress mutation without consulting the
confirmation prompt: the result is the same for every prompt answer `d`,
including a declined one. -/
theorem C4_single_selection_bypasses_prompt :
    ∀ (compileOk : String → Bool) (d : Bool) (input : CommandInput)
      (state : State) (i : Nat),
      input.papers = some [i] →
      mark_execute compileOk d input state =
        (Except.ok (CommandOutput.Message (markedMessage 1 "finished")),
         ⟨markAll state.papers [i] ReadingProgress.Read⟩) ∧
      unmark_execute compileOk d input state =
        (Except.ok (CommandOutput.Message (markedMessage 1 "unread")),
         ⟨markAll state.papers [i] ReadingProgress.Unread⟩) ∧
      current_execute compileOk d input state =
        (Except.ok (CommandOutput.Message (markedMessage 1 "currently reading")),
         ⟨markAll state.papers [i] ReadingProgress.InProgress⟩) := by
  intro co d input state i hp
  refine ⟨?_, ?_, ?_⟩
  · unfold mark_execute bulk_execute
    rw [hp]
    rfl
  · unfold unmark_execute bulk_execute
    rw [hp]
    rfl
  · unfold current_execute bulk_execute
    rw [hp]
    rfl

/-- Witness for C4: one selected paper, declined prompt answer, mutation
still applied. -/
theorem C4_witness :
    mark_execute (fun _ => true) false ⟨["mark"], some [0]⟩ ⟨[defaultPaper]⟩ =
      (Except.ok (CommandOutput.Message "Marked 1 paper as finished.\n"),
       ⟨[⟨"", none, [], "", "", none, [], none, none, ReadingProgress.Read⟩]⟩) :=
  (C4_single_selection_bypasses_prompt (fun _ => true) false ⟨["mark"], some [0]⟩
    ⟨[defaultPaper]⟩ 0 rfl).1

/-- Claim C10: `ReadingProgress::from_str` is total — it returns `Ok` on
every string, sending anything other than `unread`/`current`/`read` to
`Unread` — so the `.unwrap()` in sort's `by`-status branch never panics, and
`sort by <unrecognized>` silently selects the papers whose progress is
`Unread`. -/
theorem C10_from_str_total_sort_safe :
    (∀ s : String, ∃ r, ReadingProgress.from_str s = Except.ok r) ∧
    (∀ s : String, s ≠ "unread" → s ≠ "current" → s ≠ "read" →
      ReadingProgress.from_str s = Except.ok ReadingProgress.Unread) ∧
    (∀ (input : CommandInput) (state : State),
      sort_execute input state ≠ Except.error Fallacy.Panic) ∧
    (∀ (cmd s : String) (ps : PaperList) (state : State),
      s ≠ "unread" → s ≠ "current" → s ≠ "read" →
      sort_execute ⟨[cmd, "by", s], some ps⟩ state =
        Except.ok (CommandOutput.Papers
          (ps.filter
            (fun id => (paperAt state id).progress == ReadingProgress.Unread)))) := by
  refine ⟨fun s => ⟨_, rfl⟩, from_str_default, ?_, ?_⟩
  · intro input state
    unfold sort_execute
    split
    · simp
    · split
      · simp
      · split
        · split
          · simp
          · rename_i heq
            simp [ReadingProgress.from_str] at heq
        · simp
      · simp
  · intro cmd s ps state h1 h2 h3
    unfold sort_execute
    simp only []
    rw [if_pos trivial, from_str_default s h1 h2 h3]

/-- Witness for C10 at the unrecognized status string `bogus`. -/
theorem C10_witness :
    ReadingProgress.from_str "bogus" = Except.ok ReadingProgress.Unread ∧
    sort_execute ⟨["sort", "by", "bogus"], some [0]⟩ ⟨[defaultPaper]⟩ =
      Except.ok (CommandOutput.Papers
        (([0] : PaperList).filter
          (fun id =>
            (paperAt ⟨[defaultPaper]⟩ id).progress == ReadingProgress.Unread))) :=
  ⟨C10_from_str_total_sort_safe.2.1 "bogus" (by decide) (by decide) (by decide),
   C10_from_str_total_sort_safe.2.2.2 "sort" "bogus" [0] ⟨[defaultPaper]⟩
     (by decide) (by decide) (by decide)⟩

end Reason
